import Mathlib

/-!
Verification development for the Eclipse NFT minter tool.

This file gives a shallow embedding of the minting core of the repository:

* `formatSignature` and the base-58 helpers embed
  `EnhancedMetaplexService.formatSignature` (src/lib/env-validation.ts,
  lines 261-284) together with the `bs58` encode/decode routines it
  calls; `formatSignatureX` extends it over values whose `String(v)`
  coercion throws.
* `validateAndConvertAddress` / `resolveRecipient` embed the address
  validation of lines 237-258 and the per-item recipient resolution of
  lines 479-502.
* `estimateMintingCost` embeds lines 319-346.
* `mintCollection` embeds the batch orchestrator of lines 446-686,
  with the external world (RPC balance queries, rent queries, and the
  outcome of each `createNft(...).sendAndConfirm(...)` round) supplied
  by an explicit environment, and the observable actions (progress
  callbacks, sleeps, RPC calls, submission attempts) recorded in an
  event trace.
* `mintNFT` embeds the single-item minter of
  src/lib/metaplex-nft-service.ts, lines 36-190.

JavaScript conventions carried over into the model:

* thrown values are modelled as `RawErr` records (an `Error`'s `name`
  and `message`); the code under scrutiny only inspects those two
  fields;
* `string.includes` is `jsIncludes`;
* `Uint8Array` coercion of a JS number is `jsToUint8` (ToUint8: the
  integer modulo 2^8);
* machine numbers are modelled as `Nat` (lamport amounts are exact
  integers well below 2^53, so JS number arithmetic on them is exact);
  the literal `0.01 * LAMPORTS_PER_SOL` evaluates to exactly 10^7 in
  IEEE double arithmetic and is embedded as such.
-/

/-! ## JavaScript string and number helpers -/

/-- Does the character list `hay` start with `needle`? -/
def leadsWith : List Char → List Char → Bool
  | [], _ => true
  | _ :: _, [] => false
  | a :: as, b :: bs => a == b && leadsWith as bs

/-- Does `hay` contain `needle` as a contiguous sublist? -/
def hasSub (needle : List Char) : List Char → Bool
  | [] => needle.isEmpty
  | c :: t => leadsWith needle (c :: t) || hasSub needle t

/-- JavaScript `s.includes(sub)`. -/
def jsIncludes (s sub : String) : Bool := hasSub sub.data s.data

/-- JavaScript ToUint8 as used by `new Uint8Array([...])`: the value modulo 2^8. -/
def jsToUint8 (n : Int) : Nat := (n % 256).toNat

/-- Whitespace for the purposes of JavaScript `String.prototype.trim`
(the characters that can appear in the inputs at hand). -/
def jsWhitespace (c : Char) : Bool :=
  c == ' ' || c == '\t' || c == '\n' || c == '\r'

/-- JavaScript `s.trim()`: strip leading and trailing whitespace. -/
def jsTrim (s : String) : String :=
  ⟨((s.data.dropWhile jsWhitespace).reverse.dropWhile jsWhitespace).reverse⟩

/-! ## base58 (the `bs58` package used for signatures and public keys) -/

/-- The base-58 alphabet used by `bs58`. -/
def b58Alphabet : List Char :=
  [ '1', '2', '3', '4', '5', '6', '7', '8', '9',
    'A', 'B', 'C', 'D', 'E', 'F', 'G', 'H', 'J', 'K', 'L', 'M', 'N',
    'P', 'Q', 'R', 'S', 'T', 'U', 'V', 'W', 'X', 'Y', 'Z',
    'a', 'b', 'c', 'd', 'e', 'f', 'g', 'h', 'i', 'j', 'k', 'm', 'n',
    'o', 'p', 'q', 'r', 's', 't', 'u', 'v', 'w', 'x', 'y', 'z' ]

/-- Digit character for a value below 58. -/
def b58Char (n : Nat) : Char := b58Alphabet.getD n '?'

/-- Value of a base-58 digit character, if it is one. -/
def b58Index (c : Char) : Option Nat := b58Alphabet.findIdx? (· == c)

/-- Base-58 digit expansion of `n`, most significant first.  The first
argument is fuel; `n` itself is always enough since `n / 58 < n` for
positive `n`, which keeps the definition structurally recursive and
hence kernel-computable. -/
def natToB58Aux : Nat → Nat → List Char
  | 0, _ => []
  | fuel + 1, n => if n = 0 then [] else natToB58Aux fuel (n / 58) ++ [b58Char (n % 58)]

/-- Base-58 digit expansion of `n`, most significant first. -/
def natToB58 (n : Nat) : List Char := natToB58Aux n n

/-- Big-endian byte expansion of `n` (empty for 0), fuel-driven like `natToB58Aux`. -/
def natToBytesAux : Nat → Nat → List Nat
  | 0, _ => []
  | fuel + 1, n => if n = 0 then [] else natToBytesAux fuel (n / 256) ++ [n % 256]

/-- Big-endian byte expansion of `n` (empty for 0). -/
def natToBytes (n : Nat) : List Nat := natToBytesAux n n

/-- `bs58.encode`: one `'1'` per leading zero byte, then the base-58
digits of the remaining big-endian value. -/
def b58Encode : List Nat → String
  | bs =>
    let zeros := bs.takeWhile (· == 0)
    let value := bs.foldl (fun acc b => acc * 256 + b) 0
    ⟨zeros.map (fun _ => '1') ++ natToB58 value⟩

/-- Left fold computing the numeric value of base-58 digits. -/
def b58ValueFold : List Char → Nat → Option Nat
  | [], acc => some acc
  | c :: cs, acc =>
    match b58Index c with
    | some d => b58ValueFold cs (acc * 58 + d)
    | none => none

/-- `bs58.decode`: leading `'1'` characters become zero bytes, the rest is
the big-endian byte expansion of the base-58 value; `none` on any
character outside the alphabet. -/
def b58Decode (s : String) : Option (List Nat) :=
  let cs := s.data
  let ones := cs.takeWhile (· == '1')
  match b58ValueFold cs 0 with
  | some v => some (ones.map (fun _ => 0) ++ natToBytes v)
  | none => none

/-! ## `formatSignature` (env-validation.ts lines 261-284)

JavaScript values reaching `formatSignature` are modelled by `JsVal`:
strings, `Uint8Array`s, arrays of numbers, objects that may carry a
`signature` field, and a catch-all for anything else carrying its
`String(v)` rendering and its truthiness.  `JsVal` covers only the
values on which the source function is total: every value here has a
defined `String(v)` rendering, and inductive values are necessarily
acyclic.  The extension `JsValX` below adds a value whose `String(v)`
throws, giving the function's genuine failure path its own model. -/

inductive JsVal where
  /-- a JS string -/
  | str (s : String)
  /-- a `Uint8Array` (its byte contents) -/
  | bytes (bs : List Nat)
  /-- an `Array` of JS numbers -/
  | arr (ns : List Int)
  /-- a plain object, with the value of its `signature` field when present -/
  | obj (sig : Option JsVal)
  /-- any other value: its `String(v)` rendering and its truthiness -/
  | other (rendering : String) (truthy : Bool)

/-- JavaScript truthiness of a `JsVal`: objects (including `Uint8Array`
and arrays) are always truthy, a string is truthy iff nonempty. -/
def jsTruthy : JsVal → Bool
  | .str s => !(s == "")
  | .bytes _ => true
  | .arr _ => true
  | .obj _ => true
  | .other _ t => t

/-- Embedding of `formatSignature` (env-validation.ts lines 261-284):
strings pass through, `Uint8Array`s are base-58 encoded, a truthy
`signature` field is recursed into, numeric arrays are coerced to
`Uint8Array` and encoded, anything else is `String(v)`. The source
checks the `signature` field before `Array.isArray`, and a plain array
has no `signature` field, so the order below is faithful. -/
def formatSignature : JsVal → String
  | .str s => s
  | .bytes bs => b58Encode bs
  | .obj (some v) => if jsTruthy v then formatSignature v else "[object Object]"
  | .obj none => "[object Object]"
  | .arr ns => b58Encode (ns.map jsToUint8)
  | .other rendering _ => rendering

/-! ## Address validation and recipient resolution
(env-validation.ts lines 233-258 and 479-502) -/

/-- A `@solana/web3.js` `PublicKey` built from a string succeeds exactly
when the trimmed string base-58 decodes to exactly 32 bytes; `umi`'s
`publicKey()` validation then also succeeds.  On success the source
keeps both representations: the web3.js key (whose `toString()`
re-encodes the decoded bytes) and the umi key (the trimmed string
itself).  Embedding of `validateAndConvertAddress`
(env-validation.ts lines 237-258); `none` is the `{ isValid: false }`
branch reached via the caught parse exception. -/
def validateAndConvertAddress (address : String) : Option (String × String) :=
  match b58Decode (jsTrim address) with
  | some bs => if bs.length = 32 then some (b58Encode bs, jsTrim address) else none
  | none => none

/-- The two representations kept for a recipient: the umi key used in
the mint instruction and the web3.js key used for the associated token
account lookup. -/
structure ResolvedRecipient where
  umiKey : String
  solanaKey : String
  deriving Repr, DecidableEq

/-- Per-item recipient resolution from the batch orchestrator
(env-validation.ts lines 481-502): a recipient entry is used only when
present, truthy, and valid; otherwise the wallet owner's own key pair
is used.  `walletPk` stands for both `umi.identity.publicKey` and
`wallet.publicKey`, which coincide for a wallet-adapter identity. -/
def resolveRecipient (walletPk : String) (recipient : Option String) : ResolvedRecipient :=
  match recipient with
  | some r =>
    if !(r == "") && !(jsTrim r == "") then
      match validateAndConvertAddress r with
      | some (solKey, umiKey) => { umiKey := umiKey, solanaKey := solKey }
      | none => { umiKey := walletPk, solanaKey := walletPk }
    else { umiKey := walletPk, solanaKey := walletPk }
  | none => { umiKey := walletPk, solanaKey := walletPk }

/-! ## Network registry (config.ts) -/

/-- The four networks of `CONFIG.NETWORKS` in src/lib/config.ts. -/
inductive NetworkType where
  | solanaMainnet
  | solanaDevnet
  | eclipseMainnet
  | eclipseTestnet
  deriving Repr, DecidableEq

/-- The network key string (the object key in `CONFIG.NETWORKS`). -/
def NetworkType.key : NetworkType → String
  | .solanaMainnet => "solana-mainnet"
  | .solanaDevnet => "solana-devnet"
  | .eclipseMainnet => "eclipse-mainnet"
  | .eclipseTestnet => "eclipse-testnet"

/-- `isEclipseNetwork` from config.ts: the `blockchain` field is `"eclipse"`. -/
def isEclipseNetwork : NetworkType → Bool
  | .eclipseMainnet => true
  | .eclipseTestnet => true
  | _ => false

/-- The `explorer` field of `CONFIG.NETWORKS` in src/lib/config.ts — the
config module that metaplex-nft-service.ts imports. -/
def NetworkType.explorer : NetworkType → String
  | .solanaMainnet => "https://explorer.solana.com"
  | .solanaDevnet => "https://explorer.solana.com/?cluster=devnet"
  | .eclipseMainnet => "https://explorer.eclipse.xyz"
  | .eclipseTestnet => "https://explorer.eclipse.xyz/?cluster=testnet"

/-- Embedding of `createExplorerUrl` (env-validation.ts lines 287-317)
for the `"tx"` locator kind, the only kind the orchestrator uses.  The
source first re-normalizes the signature through `formatSignature`;
note that `network === "mainnet-beta"` is compared against the config
keys (`"solana-mainnet"`, ...), so the Solana branch always appends
the cluster query. -/
def createExplorerUrl (signature : String) (network : NetworkType) : String :=
  let fs := formatSignature (.str signature)
  if isEclipseNetwork network then
    if jsIncludes network.key "testnet" then
      "https://eclipsescan.xyz/tx/" ++ fs ++ "?cluster=testnet"
    else
      "https://eclipsescan.xyz/tx/" ++ fs
  else
    if network.key = "mainnet-beta" then
      "https://explorer.solana.com/tx/" ++ fs
    else
      "https://explorer.solana.com/tx/" ++ fs ++ "?cluster=" ++ network.key

/-! ## Error model (lib/errors.ts call sites and handleMintingError,
env-validation.ts lines 688-735) -/

/-- The `ERROR_CODES` used by the minting services. -/
inductive ErrCode where
  | walletNotConnected
  | insufficientFunds
  | validationError
  | transactionFailed
  | transactionTooLarge
  | networkError
  | mintFailed
  deriving Repr, DecidableEq

/-- A classified `NFTMinterError` as produced by `createError(code, message)`. -/
structure MinterError where
  code : ErrCode
  message : String
  deriving Repr, DecidableEq

/-- A raw thrown JavaScript `Error`: the classifier only reads its
`name` and `message`. -/
structure RawErr where
  name : String
  message : String
  deriving Repr, DecidableEq

/-- Embedding of `handleMintingError` (env-validation.ts lines 688-735):
substring checks on the raw message, in source order, with the
`TokenOwnerOffCurveError` name check before the generic fallback. -/
def handleMintingError (e : RawErr) : MinterError :=
  if jsIncludes e.message "insufficient lamports" || jsIncludes e.message "insufficient funds"
      || jsIncludes e.message "Insufficient funds" then
    { code := .insufficientFunds,
      message := "Insufficient funds for minting. Please add more SOL/ETH to your wallet." }
  else if jsIncludes e.message "User rejected" || jsIncludes e.message "Transaction rejected" then
    { code := .transactionFailed, message := "Transaction was rejected by user" }
  else if jsIncludes e.message "Simulation failed" || jsIncludes e.message "Blockhash not found" then
    { code := .transactionFailed, message := "Transaction simulation failed: " ++ e.message }
  else if jsIncludes e.message "Overruns Uint8Array" || jsIncludes e.message "too large" then
    { code := .transactionTooLarge,
      message := "Transaction too large. Try reducing metadata size or batch size." }
  else if e.name = "TokenOwnerOffCurveError" then
    { code := .validationError,
      message := "Invalid recipient address - address is not on the Ed25519 curve. Please check the recipient address format." }
  else
    { code := .mintFailed, message := "NFT minting failed: " ++ e.message }

/-! ## Cost estimator (env-validation.ts lines 319-346) -/

/-- `LAMPORTS_PER_SOL` from `@solana/web3.js`. -/
def LAMPORTS_PER_SOL : Nat := 1000000000

/-- The `mintType` parameter of `estimateMintingCost`. -/
inductive MintType where
  | single
  | collection
  deriving Repr, DecidableEq

/-- Embedding of `estimateMintingCost` (env-validation.ts lines
319-346).  `rpc` is the outcome of the three
`getMinimumBalanceForRentExemption` queries for sizes 82, 679 and 165:
`none` models the `catch` branch (any RPC rejection), which returns
the hardcoded `0.01 * LAMPORTS_PER_SOL * quantity` (exactly
`10^7 * quantity`).  On success the per-item cost is
mint rent + metadata rent + ATA rent + `5000 * 2` fees, multiplied by
`quantity` for the `collection` kind. -/
def estimateMintingCost (rpc : Option (Nat × Nat × Nat)) (mintType : MintType)
    (quantity : Nat) : Nat :=
  match rpc with
  | some (mintRent, metadataRent, ataRent) =>
    let transactionFees := 5000 * 2
    match mintType with
    | .single => mintRent + metadataRent + ataRent + transactionFees
    | .collection => (mintRent + metadataRent + ataRent + transactionFees) * quantity
  | none => LAMPORTS_PER_SOL / 100 * quantity

/-! ## Batch orchestrator (env-validation.ts lines 446-686)

The orchestrator interacts with the outside world only through

* `connection.getBalance` (a promise that may reject),
* the rent queries inside `estimateMintingCost` (whose failure the
  estimator itself absorbs), and
* one `createNft(...).sendAndConfirm(...)` round per submission
  attempt, together with the address derivations done on its result
  (all inside the per-item `try`).

An `Env` fixes the outcome of each such interaction: `balances k` is
the result of the `k`-th `getBalance` call, `rents k` the rent triple
observed by the `k`-th `estimateMintingCost` call, and `tries i k` the
outcome of attempt `k` (0-based) on item `i`.  Observable actions are
recorded in an `Ev` trace; a progress event carries a tag naming the
source message plus the `current`/`total` counters passed to the
callback (the human-readable text, which interpolates `toFixed`
numbers, is abstracted into the tag). -/

/-- Outcome of one `createNft(...).sendAndConfirm(...)` round plus the
follow-up address derivations for item `i` (the body of the per-item
`try`): either the raw signature value and derived addresses, or the
thrown error. -/
inductive MintTry where
  | ok (sig : JsVal) (mintAddress tokenAccount metadataAddress : String)
  | err (e : RawErr)

/-- External world for one `mintCollection` run. -/
structure Env where
  balances : Nat → Except RawErr Nat
  rents : Nat → Option (Nat × Nat × Nat)
  tries : Nat → Nat → MintTry

/-- Which `onProgress` call site fired (messages abstracted to tags). -/
inductive ProgressTag where
  | validatingRecipients
  | creatingAll
  | creatingItem (i retry : Nat)
  | lowBalanceWarning (i : Nat)
  | insufficientAt (i : Nat)
  | retryingItem (i : Nat)
  | failedItem (i : Nat)
  | stoppingBatch
  | batchComplete
  | settingUp
  | checkingBalance
  | generatingKeypair
  | creatingNft
  | nftCreated
  | retryingSingle (attempt : Nat)
  deriving Repr, DecidableEq

/-- Observable actions of a run. -/
inductive Ev where
  /-- an `onProgress(message, current, total)` call -/
  | progress (tag : ProgressTag) (current total : Nat)
  /-- an `onProgress(message)` call of the single-argument form -/
  | progressMsg (tag : ProgressTag)
  /-- an awaited `setTimeout` of `ms` milliseconds -/
  | sleep (ms : Nat)
  /-- a `connection.getBalance` query -/
  | getBalance
  /-- one `estimateMintingCost` invocation (its rent RPC round) -/
  | rentQuery
  /-- the even-index balance re-check comparison of `balance` against
      the estimated `required` cost of the remaining items -/
  | balanceRecheck (i : Nat) (balance required : Nat)
  /-- a `getLatestBlockhash` fetch -/
  | fetchBlockhash
  /-- a `createNft(...).sendAndConfirm(...)` submission, attempt `k` of item `i` -/
  | attemptMint (i k : Nat)
  deriving Repr, DecidableEq

/-- One entry of `results` (`EnhancedMintResult`, env-validation.ts lines 170-179;
`editionNumber`/`masterEdition` are never set by `mintCollection`). -/
structure EnhancedMintResult where
  mintAddress : String
  signature : String
  explorerUrl : String
  metadataAddress : String
  tokenAccount : String
  metadataUri : String
  deriving Repr, DecidableEq

/-- `BatchMintResult` (env-validation.ts lines 181-188). -/
structure BatchMintResult where
  results : List EnhancedMintResult
  totalMinted : Nat
  failed : Nat
  totalCost : Nat
  insufficientFunds : Bool
  remainingBalance : Nat
  deriving Repr, DecidableEq

/-- `CollectionMintOptions` (env-validation.ts lines 202-212), restricted
to the fields the orchestrator's control flow reads.  `walletPublicKey`
is `wallet.publicKey` (`none` = disconnected); a missing `recipients`
array is `none`. -/
structure CollectionMintOptions where
  collectionName : String
  imageUris : List String
  metadataUris : List String
  royalty : Nat
  network : NetworkType
  recipients : Option (List String)
  walletPublicKey : Option String

/-- Mutable state of the minting loop: the accumulators of
env-validation.ts lines 506-509 plus the cursors into the `Env`
streams and the event trace. -/
structure St where
  results : List EnhancedMintResult
  successfulMints : Nat
  insufficientFundsDetected : Bool
  finalBalance : Nat
  balCalls : Nat
  rentCalls : Nat
  events : List Ev

/-- Append one observable event. -/
def St.emit (st : St) (e : Ev) : St := { st with events := st.events ++ [e] }

/-- One `connection.getBalance(wallet.publicKey)` call: consumes the next
entry of the balance stream; a rejected promise is a thrown `RawErr`. -/
def getBal (env : Env) (st : St) : Except RawErr (Nat × St) :=
  match env.balances st.balCalls with
  | .ok b => .ok (b, { st with balCalls := st.balCalls + 1, events := st.events ++ [.getBalance] })
  | .error e => .error e

/-- One `this.estimateMintingCost(...)` call within the orchestrator:
consumes the next rent-query triple and never throws. -/
def estimateCostCall (env : Env) (st : St) (mintType : MintType) (quantity : Nat) :
    Nat × St :=
  (estimateMintingCost (env.rents st.rentCalls) mintType quantity,
   { st with rentCalls := st.rentCalls + 1, events := st.events ++ [.rentQuery] })

/-- The balance re-check before an item (env-validation.ts lines
516-533): only at indices `i` with `i > 0 && i % 2 === 0`; queries the
current balance (a rejection propagates), estimates the single-item
cost, and emits a low-balance warning when the balance is below the
estimated cost of the remaining items — and nothing else. -/
def balancePrecheck (env : Env) (total i : Nat) (st : St) : Except RawErr St :=
  if decide (0 < i) && i % 2 == 0 then
    match getBal env st with
    | .error e => .error e
    | .ok (currentBalance, st1) =>
      let (costPerNFT, st2) := estimateCostCall env st1 .single 1
      let remainingNFTs := total - i
      let estimatedRemainingCost := costPerNFT * remainingNFTs
      let st3 := st2.emit (.balanceRecheck i currentBalance estimatedRemainingCost)
      if currentBalance < estimatedRemainingCost then
        .ok (st3.emit (.progress (.lowBalanceWarning i) st3.successfulMints total))
      else
        .ok st3
  else
    .ok st

/-- The per-item retry loop (env-validation.ts lines 535-651),
`while (retryCount <= maxRetries)` with `maxRetries = 3`.  `fuel` is
`4 - retryCount`, so the structural recursion coincides with the
source's loop guard (`fuel = 0` iff `retryCount > 3`); re-entry only
happens with `retryCount + 1 <= 3`, so `fuel` never underruns.
Returns the state plus the final value of `retryCount`.  An
insufficient-funds failure sets the batch flag, re-reads the balance
(a rejection propagates), and leaves the loop without retrying; other
failures back off `retryCount * 2000` ms and retry while attempts
remain. -/
def retryLoopAux (env : Env) (opts : CollectionMintOptions) (total i : Nat) :
    Nat → Nat → St → Except RawErr (St × Nat)
  | 0, retryCount, st => .ok (st, retryCount)
  | _fuel + 1, retryCount, st =>
    let st := st.emit (.progress (.creatingItem i retryCount) i total)
    let st := st.emit (.attemptMint i retryCount)
    match env.tries i retryCount with
    | .ok sig mintAddr tokenAcct metaAddr =>
      let formatted := formatSignature sig
      let entry : EnhancedMintResult :=
        { mintAddress := mintAddr
          signature := formatted
          explorerUrl := createExplorerUrl formatted opts.network
          metadataAddress := metaAddr
          tokenAccount := tokenAcct
          metadataUri := opts.metadataUris.getD i "" }
      .ok ({ st with results := st.results ++ [entry],
                     successfulMints := st.successfulMints + 1 }, retryCount)
    | .err e =>
      let retryCount := retryCount + 1
      if jsIncludes e.message "insufficient lamports"
          || jsIncludes e.message "Insufficient funds" then
        match getBal env st with
        | .error e2 => .error e2
        | .ok (b, st1) =>
          let st2 := { st1 with insufficientFundsDetected := true, finalBalance := b }
          let st3 := st2.emit (.progress (.insufficientAt i) st2.successfulMints total)
          .ok (st3, retryCount)
      else
        if retryCount ≤ 3 then
          let waitTime := retryCount * 2000
          let st1 := st.emit (.progress (.retryingItem i) st.successfulMints total)
          let st2 := st1.emit (.sleep waitTime)
          retryLoopAux env opts total i _fuel retryCount st2
        else
          .ok (st.emit (.progress (.failedItem i) st.successfulMints total), retryCount)

/-- The retry loop as entered by the orchestrator: `retryCount = 0`,
so the loop can run at most 4 submission attempts. -/
def retryLoop (env : Env) (opts : CollectionMintOptions) (total i : Nat) (st : St) :
    Except RawErr (St × Nat) :=
  retryLoopAux env opts total i 4 0 st

/-- One full item of the minting loop: the balance pre-check followed by
the retry loop. -/
def processItem (env : Env) (opts : CollectionMintOptions) (total i : Nat) (st : St) :
    Except RawErr (St × Nat) :=
  match balancePrecheck env total i st with
  | .error e => .error e
  | .ok st1 => retryLoop env opts total i st1

/-- The `for (let i = 0; ...)` loop over items (env-validation.ts lines
511-667): after each item, the batch stops early when
`insufficientFundsDetected && retryCount > maxRetries`, and otherwise
sleeps 1000 ms between distinct items. -/
def itemsLoop (env : Env) (opts : CollectionMintOptions) (total : Nat) :
    List Nat → St → Except RawErr St
  | [], st => .ok st
  | i :: rest, st =>
    match processItem env opts total i st with
    | .error e => .error e
    | .ok (st1, retryCount) =>
      if st1.insufficientFundsDetected && decide (3 < retryCount) then
        .ok (st1.emit (.progress .stoppingBatch st1.successfulMints total))
      else
        let st2 := if i < total - 1 then st1.emit (.sleep 1000) else st1
        itemsLoop env opts total rest st2

/-- The body of `mintCollection`'s `try` block (env-validation.ts lines
457-681): upfront whole-batch estimate and balance check, one
batch-wide recipient-resolution pass, the item loop, and the final
balance read.  Raw thrown errors escape to the caller. -/
def mintCollectionTry (env : Env) (opts : CollectionMintOptions) (walletPk : String) :
    Except RawErr (BatchMintResult × List Ev) :=
  let totalNFTs := opts.imageUris.length
  let st0 : St := { results := [], successfulMints := 0, insufficientFundsDetected := false,
                    finalBalance := 0, balCalls := 0, rentCalls := 0, events := [] }
  let (estimatedCost, st1) := estimateCostCall env st0 .collection totalNFTs
  match getBal env st1 with
  | .error e => .error e
  | .ok (initialBalance, st2) =>
    if initialBalance < estimatedCost then
      .error { name := "NFTMinterError",
               message := "Insufficient funds for " ++ toString totalNFTs ++ " NFTs." }
    else
      let st3 := st2.emit (.progress .validatingRecipients 0 totalNFTs)
      let _validatedRecipients :=
        (List.range totalNFTs).map fun i =>
          resolveRecipient walletPk (opts.recipients.bind fun rs => rs.get? i)
      let st4 := st3.emit (.progress .creatingAll 0 totalNFTs)
      let st5 := { st4 with finalBalance := initialBalance }
      match itemsLoop env opts totalNFTs (List.range totalNFTs) st5 with
      | .error e => .error e
      | .ok st6 =>
        match getBal env st6 with
        | .error e => .error e
        | .ok (finalBalance, st7) =>
          let st8 := st7.emit (.progress .batchComplete st7.successfulMints totalNFTs)
          .ok ({ results := st8.results
                 totalMinted := st8.successfulMints
                 failed := totalNFTs - st8.successfulMints
                 totalCost := estimatedCost
                 insufficientFunds := st8.insufficientFundsDetected
                 remainingBalance := finalBalance }, st8.events)

/-- Embedding of `mintCollection` (env-validation.ts lines 446-686).
The two pre-flight `createError` throws happen outside the `try`; every
raw error thrown inside the `try` is re-thrown through
`handleMintingError`.  The returned trace lists the observable actions
of a completed run. -/
def mintCollection (env : Env) (opts : CollectionMintOptions) :
    Except MinterError (BatchMintResult × List Ev) :=
  match opts.walletPublicKey with
  | none => .error { code := .walletNotConnected, message := "Wallet not connected" }
  | some walletPk =>
    if opts.imageUris.length ≠ opts.metadataUris.length then
      .error { code := .validationError, message := "Image and metadata counts must match" }
    else
      match mintCollectionTry env opts walletPk with
      | .ok r => .ok r
      | .error e => .error (handleMintingError e)

/-! ## Single-item minter (src/lib/metaplex-nft-service.ts lines 36-190) -/

/-- Embedding of `MetaplexNFTService.estimateMintingCost`
(metaplex-nft-service.ts lines 36-53): four rent queries (sizes 82,
679, 282, 165) plus `5000 * 3` fees; the `catch` branch returns the
hardcoded `0.01 * LAMPORTS_PER_SOL`. -/
def estimateMintingCostMeta (rpc : Option (Nat × Nat × Nat × Nat)) : Nat :=
  match rpc with
  | some (mintRent, metadataRent, masterEditionRent, ataRent) =>
    mintRent + metadataRent + masterEditionRent + ataRent + 5000 * 3
  | none => LAMPORTS_PER_SOL / 100

/-- External world for one `mintNFT` run: the single balance query, the
rent queries of the estimator, the outcome of each `createNft` attempt
(the confirmed transaction's signature string, or the thrown error),
and the derived addresses. -/
structure NftEnv where
  balance : Except RawErr Nat
  rents : Option (Nat × Nat × Nat × Nat)
  attempts : Nat → Except RawErr String
  mintAddress : String
  tokenAccount : String
  metadataAddress : String

/-- `MetaplexNFTResult` (metaplex-nft-service.ts lines 11-18). -/
structure MetaplexNFTResult where
  mintAddress : String
  signature : String
  explorerUrl : String
  metadataAddress : String
  tokenAccount : String
  metadataUri : String
  deriving Repr, DecidableEq

/-- The error classification of `mintNFT`'s `catch` block
(metaplex-nft-service.ts lines 170-189): note the lowercase
`"insufficient funds"` check and that transient failures map to
`NETWORK_ERROR` here. -/
def classifyMeta (e : RawErr) : MinterError :=
  if jsIncludes e.message "insufficient funds" then
    { code := .insufficientFunds, message := "Insufficient funds for minting" }
  else if jsIncludes e.message "User rejected" then
    { code := .transactionFailed, message := "Transaction was rejected by user" }
  else if jsIncludes e.message "Simulation failed" || jsIncludes e.message "Blockhash not found" then
    { code := .networkError, message := "Network error - please try again" }
  else
    { code := .mintFailed, message := "NFT minting failed: " ++ e.message }

/-- The `while (retryCount < maxRetries)` loop of `mintNFT`
(metaplex-nft-service.ts lines 94-141), `maxRetries = 3`.  `fuel` is
`3 - retryCount`, matching the loop guard.  Each iteration fetches a
fresh blockhash (the awaited `getLatestBlockhash` inside the confirm
strategy) and submits; a failure whose message contains
`"Blockhash not found"` is retried after a 2000 ms wait while
`retryCount + 1 < 3`, any other failure is re-thrown at once.  The
fuel-exhausted case is the `if (!result)` throw after the loop.
Returns the signature, the final `retryCount`, and the trace. -/
def mintNFTLoopAux (env : NftEnv) :
    Nat → Nat → List Ev → Except RawErr (String × Nat) × List Ev
  | 0, _, evs =>
    (.error { name := "Error", message := "Failed to create NFT after maximum retries" }, evs)
  | _fuel + 1, retryCount, evs =>
    let evs := evs ++ [.fetchBlockhash, .attemptMint 0 retryCount]
    match env.attempts retryCount with
    | .ok sig => (.ok (sig, retryCount), evs)
    | .error e =>
      let retryCount := retryCount + 1
      if jsIncludes e.message "Blockhash not found" && decide (retryCount < 3) then
        let evs := evs ++ [.progressMsg (.retryingSingle retryCount), .sleep 2000]
        mintNFTLoopAux env _fuel retryCount evs
      else
        (.error e, evs)

/-- Embedding of `MetaplexNFTService.mintNFT` (metaplex-nft-service.ts
lines 55-190).  The missing-wallet throw happens before the `try`;
everything thrown inside the `try` is re-classified by the `catch`
block.  Pre-flight: one balance query compared against the estimate.
The trace is returned alongside the outcome so that failed runs keep
their observable actions.  The pre-flight insufficient-funds message
(`"Insufficient funds. Need at least ..."`) interpolates a `toFixed`
amount; the embedding keeps its checked prefix verbatim and renders
the amount in lamports.  The explorer locator follows line 158:
`CONFIG.NETWORKS[network].explorer + "/tx/" + result.signature`, with
`"?cluster=testnet"` appended iff the network key contains
`"testnet"` or `"devnet"`. -/
def mintNFT (env : NftEnv) (wallet : Option String) (network : NetworkType)
    (metadataUri : String) : Except MinterError MetaplexNFTResult × List Ev :=
  match wallet with
  | none => (.error { code := .walletNotConnected, message := "Wallet not connected" }, [])
  | some _ =>
    let evs : List Ev := [.progressMsg .settingUp, .progressMsg .checkingBalance]
    match env.balance with
    | .error e => (.error (classifyMeta e), evs)
    | .ok balance =>
      let evs := evs ++ [.getBalance, .rentQuery]
      let estimatedCost := estimateMintingCostMeta env.rents
      if balance < estimatedCost then
        let thrown : RawErr :=
          { name := "NFTMinterError"
            message := "Insufficient funds. Need at least " ++ toString estimatedCost }
        (.error (classifyMeta thrown), evs)
      else
        let evs := evs ++ [.progressMsg .generatingKeypair, .progressMsg .creatingNft]
        match mintNFTLoopAux env 3 0 evs with
        | (.error e, evs1) => (.error (classifyMeta e), evs1)
        | (.ok (sig, _), evs1) =>
          let evs2 := evs1 ++ [.progressMsg .nftCreated]
          (.ok { mintAddress := env.mintAddress
                 signature := sig
                 explorerUrl := network.explorer ++ "/tx/" ++ sig
                   ++ (if jsIncludes network.key "testnet" || jsIncludes network.key "devnet"
                       then "?cluster=testnet" else "")
                 metadataAddress := env.metadataAddress
                 tokenAccount := env.tokenAccount
                 metadataUri := metadataUri }, evs2)

/-! ## Claims about `formatSignature` -/

/-- Test-harness constructor: a value wrapped in `n` nested objects,
each carrying the previous level in its `signature` field. -/
def nestSig : Nat → JsVal → JsVal
  | 0, v => v
  | n + 1, v => .obj (some (nestSig n v))

/-- Nested wrappers around a `Uint8Array` are always truthy. -/
theorem jsTruthy_nestSig_bytes (n : Nat) (bs : List Nat) :
    jsTruthy (nestSig n (.bytes bs)) = true := by
  cases n <;> rfl

/-- Bytes below 256 survive the `Uint8Array` coercion unchanged. -/
theorem map_jsToUint8_ofNat (bs : List Nat) (h : ∀ b ∈ bs, b < 256) :
    (bs.map Int.ofNat).map jsToUint8 = bs := by
  rw [List.map_map]
  calc bs.map (jsToUint8 ∘ Int.ofNat)
      = bs.map id := by
        apply List.map_congr_left
        intro b hb
        have hblt := h b hb
        simp only [Function.comp_apply, jsToUint8, id_eq, Int.ofNat_eq_coe]
        omega
    _ = bs := List.map_id bs

/-- C6: signature normalization is idempotent — `formatSignature` of an
already-formatted string returns that string unchanged, hence applying
it twice equals applying it once — and representation-invariant: a
signature given as a `Uint8Array`, as the same bytes in a numeric
array, or wrapped in an object's `signature` field formats to the
identical canonical base-58 string. -/
theorem formatSignature_idempotent_repr_invariant :
    (∀ s : String, formatSignature (.str s) = s)
    ∧ (∀ v : JsVal, formatSignature (.str (formatSignature v)) = formatSignature v)
    ∧ (∀ bs : List Nat, (∀ b ∈ bs, b < 256) →
        formatSignature (.arr (bs.map Int.ofNat)) = formatSignature (.bytes bs)
        ∧ formatSignature (.obj (some (.bytes bs))) = formatSignature (.bytes bs)) := by
  refine ⟨fun s => rfl, fun v => rfl, fun bs h => ⟨?_, rfl⟩⟩
  show b58Encode ((bs.map Int.ofNat).map jsToUint8) = b58Encode bs
  rw [map_jsToUint8_ofNat bs h]

/-- Witness for C6: the byte list `[0, 255, 7]` in all three
representations formats to the same string. -/
theorem formatSignature_repr_invariant_witness :
    formatSignature (.arr ([0, 255, 7].map Int.ofNat)) = formatSignature (.bytes [0, 255, 7])
    ∧ formatSignature (.obj (some (.bytes [0, 255, 7]))) = formatSignature (.bytes [0, 255, 7]) :=
  formatSignature_idempotent_repr_invariant.2.2 [0, 255, 7] (by decide)

/-! The `String(signature)` fallback of `formatSignature` is not total
in JavaScript: on a value with no primitive coercion — e.g.
`Object.create(null)`, a prototype-less object, which is truthy, has
no `signature` field, and is not an array — `String(v)` raises a
`TypeError`.  `JsValX` extends `JsVal` with such a value (`exotic`,
optionally carrying a `signature` field of its own, since assigning
one to a prototype-less object routes it into the recursive branch
before the fallback can throw), and `formatSignatureX` is the same
source function over the extended values, returning the thrown error
on the fallback path.  A cyclic `signature` chain (`a.signature = a`),
whose unbounded recursion overflows the JavaScript stack, has no
counterpart among inductive (hence acyclic) values and stays outside
the embedding. -/

inductive JsValX where
  /-- a JS string -/
  | str (s : String)
  /-- a `Uint8Array` (its byte contents) -/
  | bytes (bs : List Nat)
  /-- an `Array` of JS numbers -/
  | arr (ns : List Int)
  /-- a plain object, with the value of its `signature` field when present -/
  | obj (sig : Option JsValX)
  /-- an object with no primitive coercion, e.g. `Object.create(null)`:
      `String(v)` on it throws a `TypeError` -/
  | exotic (sig : Option JsValX)
  /-- any other value: its `String(v)` rendering and its truthiness -/
  | other (rendering : String) (truthy : Bool)

/-- JavaScript truthiness over the extended values (all objects,
including prototype-less ones, are truthy). -/
def jsTruthyX : JsValX → Bool
  | .str s => !(s == "")
  | .bytes _ => true
  | .arr _ => true
  | .obj _ => true
  | .exotic _ => true
  | .other _ t => t

/-- The `TypeError` raised by `String(v)` on a value with no primitive
coercion. -/
def stringCoercionTypeError : RawErr :=
  { name := "TypeError", message := "Cannot convert object to primitive value" }

/-- `formatSignature` (env-validation.ts lines 261-284) over the
extended values: identical to `formatSignature` on the `JsVal`
fragment, and on the fallback path — reached by an `exotic` value
whose `signature` field is absent or falsy — it propagates the
`TypeError` thrown by `String(signature)`. -/
def formatSignatureX : JsValX → Except RawErr String
  | .str s => .ok s
  | .bytes bs => .ok (b58Encode bs)
  | .obj (some v) => if jsTruthyX v then formatSignatureX v else .ok "[object Object]"
  | .obj none => .ok "[object Object]"
  | .exotic (some v) => if jsTruthyX v then formatSignatureX v else .error stringCoercionTypeError
  | .exotic none => .error stringCoercionTypeError
  | .arr ns => .ok (b58Encode (ns.map jsToUint8))
  | .other rendering _ => .ok rendering

/-- Inclusion of the coercible fragment into the extended values. -/
def embedJsVal : JsVal → JsValX
  | .str s => .str s
  | .bytes bs => .bytes bs
  | .arr ns => .arr ns
  | .obj none => .obj none
  | .obj (some v) => .obj (some (embedJsVal v))
  | .other r t => .other r t

/-- The inclusion preserves truthiness. -/
theorem jsTruthyX_embedJsVal (v : JsVal) : jsTruthyX (embedJsVal v) = jsTruthy v := by
  cases v with
  | obj sig => cases sig <;> rfl
  | _ => rfl

/-- C10 counterexample: `formatSignature` can throw.  On a value with no
primitive coercion (e.g. `Object.create(null)`) the `String(signature)`
fallback raises a `TypeError` — both when such a value is passed
directly and when it is reached through a wrapper's truthy `signature`
field — so `formatSignature` is not total on every input shape. -/
theorem formatSignature_throws_on_unconvertible :
    formatSignatureX (.exotic none) = .error stringCoercionTypeError
    ∧ formatSignatureX (.obj (some (.exotic none))) = .error stringCoercionTypeError :=
  ⟨rfl, rfl⟩

/-- On the coercible, acyclic fragment the extended function agrees
with the total `formatSignature` and never produces an error. -/
theorem formatSignatureX_embedJsVal :
    ∀ v : JsVal, formatSignatureX (embedJsVal v) = .ok (formatSignature v)
  | .str _ => rfl
  | .bytes _ => rfl
  | .arr _ => rfl
  | .obj none => rfl
  | .obj (some w) => by
    have ih := formatSignatureX_embedJsVal w
    show (if jsTruthyX (embedJsVal w) then formatSignatureX (embedJsVal w)
          else .ok "[object Object]")
        = .ok (if jsTruthy w then formatSignature w else "[object Object]")
    rw [jsTruthyX_embedJsVal]
    by_cases h : jsTruthy w = true
    · rw [if_pos h, if_pos h, ih]
    · rw [Bool.not_eq_true] at h
      rw [h]
      simp
  | .other _ _ => rfl

/-- C10 (amended): `formatSignature` returns some string and never
throws on every value whose `String(v)` coercions are defined and
whose `signature` chain is acyclic — i.e. on the whole `JsVal`
fragment the extended function agrees with the total `formatSignature`
and never produces an error; in particular a signature buried under
any number of nested `signature`-field wrappers still yields its
base-58 string.  It throws a `TypeError` on values with no primitive
coercion (see the counterexample), and a cyclic `signature` chain
diverges outside the embedding. -/
theorem formatSignature_total_amended :
    (∀ v : JsVal, formatSignatureX (embedJsVal v) = .ok (formatSignature v))
    ∧ (∀ (n : Nat) (bs : List Nat), formatSignature (nestSig n (.bytes bs)) = b58Encode bs) := by
  constructor
  · exact formatSignatureX_embedJsVal
  · intro n bs
    induction n with
    | zero => rfl
    | succ m ih =>
      show formatSignature (.obj (some (nestSig m (.bytes bs)))) = b58Encode bs
      rw [formatSignature, jsTruthy_nestSig_bytes, if_pos rfl, ih]

/-! ## Claims about recipient resolution -/

/-- C4: every absent, blank, or structurally invalid recipient
identifier resolves to the wallet owner's own address in both
representations (and the total definition never throws); in
particular the identifier `"not-an-address"` with wallet `"W1"`
resolves to the pair `("W1", "W1")`. -/
theorem resolveRecipient_invalid_falls_back_to_wallet :
    (∀ w : String, resolveRecipient w none = ⟨w, w⟩)
    ∧ (∀ (w s : String), jsTrim s = "" → resolveRecipient w (some s) = ⟨w, w⟩)
    ∧ (∀ (w s : String), validateAndConvertAddress s = none →
        resolveRecipient w (some s) = ⟨w, w⟩)
    ∧ resolveRecipient "W1" (some "not-an-address") = ⟨"W1", "W1"⟩ := by
  refine ⟨fun w => rfl, ?_, ?_, by decide⟩
  · intro w s h
    simp [resolveRecipient, h]
  · intro w s h
    simp only [resolveRecipient, h]
    split <;> rfl

/-- Witness for C4: the hypotheses of the fallback theorem hold at the
concrete input of the spec's scenario. -/
theorem resolveRecipient_invalid_falls_back_witness :
    validateAndConvertAddress "not-an-address" = none
    ∧ resolveRecipient "W1" (some "not-an-address") =
        { umiKey := "W1", solanaKey := "W1" } :=
  ⟨by decide,
   resolveRecipient_invalid_falls_back_to_wallet.2.2.1 "W1" "not-an-address" (by decide)⟩

/-! ## Claims about the cost estimator -/

/-- C7 counterexample: for quantity `0` — the value `mintCollection`
passes for an empty batch — the estimator returns `0`, both on a
successful RPC round and on the fallback path, contradicting the
claim that it never returns a zero estimate. -/
theorem estimateMintingCost_zero_at_quantity_zero :
    estimateMintingCost (some (1113600, 5616720, 2039280)) .collection 0 = 0
    ∧ estimateMintingCost none .collection 0 = 0 := by
  constructor <;> rfl

/-- C7 (amended): the estimator is a total function (never throws), for
the collection kind it returns the per-item cost times the quantity,
on RPC failure it returns the hardcoded `0.01 SOL` fallback times the
quantity, and the result is positive whenever the quantity is at least
one. -/
theorem estimateMintingCost_amended (rpc : Option (Nat × Nat × Nat)) (mintType : MintType)
    (quantity : Nat) (hq : 1 ≤ quantity) :
    0 < estimateMintingCost rpc mintType quantity
    ∧ estimateMintingCost rpc .collection quantity
        = estimateMintingCost rpc .single 1 * quantity
    ∧ estimateMintingCost none mintType quantity = LAMPORTS_PER_SOL / 100 * quantity := by
  refine ⟨?_, ?_, ?_⟩
  · cases rpc with
    | none =>
      cases mintType <;> simp only [estimateMintingCost, LAMPORTS_PER_SOL] <;> omega
    | some t =>
      obtain ⟨a, b, c⟩ := t
      cases mintType with
      | single => simp only [estimateMintingCost]; omega
      | collection =>
        simp only [estimateMintingCost]
        exact Nat.mul_pos (by omega) hq
  · cases rpc with
    | none =>
      show LAMPORTS_PER_SOL / 100 * quantity = LAMPORTS_PER_SOL / 100 * 1 * quantity
      ring
    | some t => obtain ⟨a, b, c⟩ := t; rfl
  · cases mintType <;> rfl

/-- Witness for C7 (amended): concrete rents, collection kind, quantity 3. -/
theorem estimateMintingCost_amended_witness :
    0 < estimateMintingCost (some (100, 200, 300)) .collection 3
    ∧ estimateMintingCost (some (100, 200, 300)) .collection 3
        = estimateMintingCost (some (100, 200, 300)) .single 1 * 3
    ∧ estimateMintingCost none .collection 3 = LAMPORTS_PER_SOL / 100 * 3 :=
  estimateMintingCost_amended (some (100, 200, 300)) .collection 3 (by decide)

/-! ## Claims about the batch orchestrator: the insufficient-funds stop -/

/-- Environment for the spec's three-item scenario: item 2's submission
throws an insufficient-funds error on its first attempt; items 1 and 3
succeed on their first attempts; the initial balance easily covers the
whole-batch estimate, and every balance query succeeds. -/
def ifStopEnv : Env where
  balances := fun k => if k = 0 then .ok 1000000000000 else .ok 5
  rents := fun _ => some (100, 200, 300)
  tries := fun i k =>
    if i = 1 then
      .err { name := "Error", message := "Transfer: insufficient lamports 10, need 20" }
    else
      .ok (.str ("sig" ++ toString i ++ toString k))
        ("mint" ++ toString i) ("ata" ++ toString i) ("meta" ++ toString i)

/-- Options for the three-item scenario. -/
def ifStopOpts : CollectionMintOptions where
  collectionName := "C"
  imageUris := ["i1", "i2", "i3"]
  metadataUris := ["m1", "m2", "m3"]
  royalty := 500
  network := .eclipseMainnet
  recipients := none
  walletPublicKey := some "W1"

/-- C2, evaluated on the code: in the three-item batch where item 2's
submission throws `InsufficientFunds` on its first attempt, the
orchestrator records the failure without retrying item 2 (no
`attemptMint 1 1` event) and sets the flag — but it does NOT stop:
item 3 is still attempted (the `attemptMint 2 0` event) and succeeds,
so the outcome is `totalMinted = 2, failed = 1`, not the claimed
`1 / 2`.  The early-stop guard
`insufficientFundsDetected && retryCount > maxRetries` cannot fire
after a first-attempt insufficient-funds failure, whose `break` leaves
`retryCount = 1 <= maxRetries = 3`, although the code's own comment
says "If insufficient funds detected, stop trying to mint more
NFTs". -/
theorem mintCollection_does_not_stop_after_insufficient_funds :
    ∃ out evs, mintCollection ifStopEnv ifStopOpts = .ok (out, evs)
      ∧ out.totalMinted = 2
      ∧ out.failed = 1
      ∧ out.insufficientFunds = true
      ∧ Ev.attemptMint 2 0 ∈ evs
      ∧ Ev.attemptMint 1 1 ∉ evs := by
  refine ⟨_, _, rfl, ?_, ?_, ?_, ?_, ?_⟩ <;> decide

/-! ## Structural lemmas about the orchestrator loops -/

/-- Projection lemma: `St.emit` leaves `results` unchanged. -/
@[simp] theorem St.emit_results (st : St) (e : Ev) : (st.emit e).results = st.results := rfl

/-- Projection lemma: `St.emit` leaves `successfulMints` unchanged. -/
@[simp] theorem St.emit_successfulMints (st : St) (e : Ev) :
    (st.emit e).successfulMints = st.successfulMints := rfl

/-- Projection lemma: `St.emit` leaves the insufficient-funds flag unchanged. -/
@[simp] theorem St.emit_insufficientFundsDetected (st : St) (e : Ev) :
    (st.emit e).insufficientFundsDetected = st.insufficientFundsDetected := rfl

/-- Projection lemma: `St.emit` leaves `finalBalance` unchanged. -/
@[simp] theorem St.emit_finalBalance (st : St) (e : Ev) :
    (st.emit e).finalBalance = st.finalBalance := rfl

/-- Projection lemma: `St.emit` leaves `balCalls` unchanged. -/
@[simp] theorem St.emit_balCalls (st : St) (e : Ev) : (st.emit e).balCalls = st.balCalls := rfl

/-- Projection lemma: `St.emit` leaves `rentCalls` unchanged. -/
@[simp] theorem St.emit_rentCalls (st : St) (e : Ev) : (st.emit e).rentCalls = st.rentCalls := rfl

/-- Projection lemma: `St.emit` appends the event to the trace. -/
@[simp] theorem St.emit_events (st : St) (e : Ev) : (st.emit e).events = st.events ++ [e] := rfl

/-- Projection lemma for the success update of the retry loop. -/
@[simp] theorem St.updRes_results (s : St) (r : List EnhancedMintResult) (m : Nat) :
    ({ s with results := r, successfulMints := m } : St).results = r := rfl

/-- Projection lemma for the success update of the retry loop. -/
@[simp] theorem St.updRes_successfulMints (s : St) (r : List EnhancedMintResult) (m : Nat) :
    ({ s with results := r, successfulMints := m } : St).successfulMints = m := rfl

/-- Projection lemma for the success update of the retry loop. -/
@[simp] theorem St.updRes_insufficientFundsDetected (s : St) (r : List EnhancedMintResult)
    (m : Nat) :
    ({ s with results := r, successfulMints := m } : St).insufficientFundsDetected
      = s.insufficientFundsDetected := rfl

/-- Projection lemma for the success update of the retry loop. -/
@[simp] theorem St.updRes_events (s : St) (r : List EnhancedMintResult) (m : Nat) :
    ({ s with results := r, successfulMints := m } : St).events = s.events := rfl

/-- Projection lemma for the insufficient-funds update of the retry loop. -/
@[simp] theorem St.updFlag_results (s : St) (fl : Bool) (bb : Nat) :
    ({ s with insufficientFundsDetected := fl, finalBalance := bb } : St).results
      = s.results := rfl

/-- Projection lemma for the insufficient-funds update of the retry loop. -/
@[simp] theorem St.updFlag_successfulMints (s : St) (fl : Bool) (bb : Nat) :
    ({ s with insufficientFundsDetected := fl, finalBalance := bb } : St).successfulMints
      = s.successfulMints := rfl

/-- Projection lemma for the insufficient-funds update of the retry loop. -/
@[simp] theorem St.updFlag_insufficientFundsDetected (s : St) (fl : Bool) (bb : Nat) :
    ({ s with insufficientFundsDetected := fl, finalBalance := bb } : St).insufficientFundsDetected
      = fl := rfl

/-- Projection lemma for the insufficient-funds update of the retry loop. -/
@[simp] theorem St.updFlag_events (s : St) (fl : Bool) (bb : Nat) :
    ({ s with insufficientFundsDetected := fl, finalBalance := bb } : St).events
      = s.events := rfl

/-- Projection lemma for the final-balance seed of the orchestrator. -/
@[simp] theorem St.updBal_results (s : St) (bb : Nat) :
    ({ s with finalBalance := bb } : St).results = s.results := rfl

/-- Projection lemma for the final-balance seed of the orchestrator. -/
@[simp] theorem St.updBal_successfulMints (s : St) (bb : Nat) :
    ({ s with finalBalance := bb } : St).successfulMints = s.successfulMints := rfl

/-- Projection lemma for the final-balance seed of the orchestrator. -/
@[simp] theorem St.updBal_insufficientFundsDetected (s : St) (bb : Nat) :
    ({ s with finalBalance := bb } : St).insufficientFundsDetected
      = s.insufficientFundsDetected := rfl

/-- Projection lemma for the final-balance seed of the orchestrator. -/
@[simp] theorem St.updBal_events (s : St) (bb : Nat) :
    ({ s with finalBalance := bb } : St).events = s.events := rfl

/-- Projection lemma for the final-balance seed of the orchestrator. -/
@[simp] theorem St.updBal_balCalls (s : St) (bb : Nat) :
    ({ s with finalBalance := bb } : St).balCalls = s.balCalls := rfl

/-- Projection lemma for the final-balance seed of the orchestrator. -/
@[simp] theorem St.updBal_rentCalls (s : St) (bb : Nat) :
    ({ s with finalBalance := bb } : St).rentCalls = s.rentCalls := rfl

/-- A successful `getBal` only advances the balance cursor and the trace. -/
theorem getBal_ok_preserves (env : Env) (st : St) (b : Nat) (st' : St)
    (h : getBal env st = .ok (b, st')) :
    st'.results = st.results ∧ st'.successfulMints = st.successfulMints
    ∧ st'.insufficientFundsDetected = st.insufficientFundsDetected
    ∧ st'.finalBalance = st.finalBalance
    ∧ st'.rentCalls = st.rentCalls := by
  unfold getBal at h
  split at h
  · simp only [Except.ok.injEq, Prod.mk.injEq] at h
    obtain ⟨-, hst⟩ := h
    subst hst
    exact ⟨rfl, rfl, rfl, rfl, rfl⟩
  · cases h

/-- Exact evaluation of the balance pre-check at an even index `i > 0`
whose balance query succeeds: one balance query, one rent round, the
re-check comparison against `costPerNFT * remaining`, and a
low-balance warning exactly when the balance falls short. -/
theorem balancePrecheck_even_eval (env : Env) (total i : Nat) (st : St) (b : Nat)
    (hi : (decide (0 < i) && (i % 2 == 0)) = true)
    (hb : env.balances st.balCalls = .ok b) :
    balancePrecheck env total i st =
      .ok { st with
              balCalls := st.balCalls + 1
              rentCalls := st.rentCalls + 1
              events := st.events
                ++ [.getBalance, .rentQuery,
                    .balanceRecheck i b
                      (estimateMintingCost (env.rents st.rentCalls) .single 1 * (total - i))]
                ++ (if b < estimateMintingCost (env.rents st.rentCalls) .single 1 * (total - i)
                    then [.progress (.lowBalanceWarning i) st.successfulMints total]
                    else []) } := by
  unfold balancePrecheck getBal estimateCostCall
  rw [hi, hb]
  by_cases hlt : b < estimateMintingCost (env.rents st.rentCalls) MintType.single 1 * (total - i)
  · simp [St.emit, hlt]
  · simp [St.emit, hlt]

/-- The balance pre-check is skipped entirely away from even indices. -/
theorem balancePrecheck_skipped (env : Env) (total i : Nat) (st : St)
    (hi : (decide (0 < i) && (i % 2 == 0)) = false) :
    balancePrecheck env total i st = .ok st := by
  unfold balancePrecheck
  rw [hi]
  simp

/-- The balance pre-check only touches the cursors and the trace. -/
theorem balancePrecheck_ok_preserves (env : Env) (total i : Nat) (st st' : St)
    (h : balancePrecheck env total i st = .ok st') :
    st'.results = st.results ∧ st'.successfulMints = st.successfulMints
    ∧ st'.insufficientFundsDetected = st.insufficientFundsDetected
    ∧ st'.finalBalance = st.finalBalance := by
  by_cases hi : (decide (0 < i) && (i % 2 == 0)) = true
  · cases hb : env.balances st.balCalls with
    | ok b =>
      rw [balancePrecheck_even_eval env total i st b hi hb] at h
      simp only [Except.ok.injEq] at h
      subst h
      exact ⟨rfl, rfl, rfl, rfl⟩
    | error e =>
      unfold balancePrecheck getBal at h
      rw [hi, hb] at h
      simp at h
  · rw [balancePrecheck_skipped env total i st (by simpa using hi)] at h
    simp only [Except.ok.injEq] at h
    subst h
    exact ⟨rfl, rfl, rfl, rfl⟩

/-- Counting lemma for the per-item retry loop: a completed loop adds at
most one successful mint, and adds exactly as many `results` entries
as successful mints. -/
theorem retryLoopAux_counts (env : Env) (opts : CollectionMintOptions) (total i : Nat) :
    ∀ (fuel rc : Nat) (st st' : St) (rc2 : Nat),
      retryLoopAux env opts total i fuel rc st = .ok (st', rc2) →
      st'.results.length + st.successfulMints = st.results.length + st'.successfulMints
      ∧ st.successfulMints ≤ st'.successfulMints
      ∧ st'.successfulMints ≤ st.successfulMints + 1 := by
  intro fuel
  induction fuel with
  | zero =>
    intro rc st st' rc2 h
    simp only [retryLoopAux, Except.ok.injEq, Prod.mk.injEq] at h
    obtain ⟨hst, -⟩ := h
    subst hst
    omega
  | succ n ih =>
    intro rc st st' rc2 h
    simp only [retryLoopAux] at h
    split at h
    · -- successful attempt: one result entry, one successful mint
      simp only [Except.ok.injEq, Prod.mk.injEq] at h
      obtain ⟨hst, -⟩ := h
      subst hst
      simp
      all_goals omega
    · -- failed attempt
      split at h
      · -- insufficient funds: balance re-read, flag set, loop left
        split at h
        · cases h
        · next b st1 hgb =>
          have hp := getBal_ok_preserves env _ b st1 hgb
          simp only [St.emit_results, St.emit_successfulMints] at hp
          have hl : st1.results.length = st.results.length := by rw [hp.1]
          have hm := hp.2.1
          simp only [Except.ok.injEq, Prod.mk.injEq] at h
          obtain ⟨hst, -⟩ := h
          subst hst
          simp
          omega
      · split at h
        · -- backoff and retry
          have := ih _ _ _ _ h
          simp only [St.emit_results, St.emit_successfulMints] at this
          omega
        · -- retries exhausted
          simp only [Except.ok.injEq, Prod.mk.injEq] at h
          obtain ⟨hst, -⟩ := h
          subst hst
          simp

/-- Counting lemma for the item loop: a completed loop (normal or
early-stopped) adds at most one successful mint per remaining item,
and keeps `results` in lockstep with `successfulMints`. -/
theorem itemsLoop_counts (env : Env) (opts : CollectionMintOptions) (total : Nat) :
    ∀ (is : List Nat) (st st' : St),
      itemsLoop env opts total is st = .ok st' →
      st'.results.length + st.successfulMints = st.results.length + st'.successfulMints
      ∧ st.successfulMints ≤ st'.successfulMints
      ∧ st'.successfulMints ≤ st.successfulMints + is.length := by
  intro is
  induction is with
  | nil =>
    intro st st' h
    simp only [itemsLoop, Except.ok.injEq] at h
    subst h
    omega
  | cons i rest ih =>
    intro st st' h
    simp only [itemsLoop] at h
    split at h
    · cases h
    · next st1 retryCount hpi =>
      unfold processItem at hpi
      split at hpi
      · cases hpi
      · next stp hpre =>
        have hpres := balancePrecheck_ok_preserves env total i st stp hpre
        have hlp : stp.results.length = st.results.length := by rw [hpres.1]
        have hretry := retryLoopAux_counts env opts total i 4 0 stp st1 retryCount hpi
        split at h
        · -- early stop on insufficient funds
          simp only [Except.ok.injEq] at h
          subst h
          simp only [St.emit_results, St.emit_successfulMints, List.length_cons]
          omega
        · -- continue with the remaining items
          have hrest := ih _ _ h
          simp only [St.emit_results, St.emit_successfulMints, List.length_cons] at hrest ⊢
          have h2 : (if i < total - 1 then st1.emit (.sleep 1000) else st1).results.length
              = st1.results.length := by split <;> simp
          have h3 : (if i < total - 1 then st1.emit (.sleep 1000) else st1).successfulMints
              = st1.successfulMints := by split <;> simp
          rw [h2, h3] at hrest
          omega

/-- Counts invariant for the body of `mintCollection`'s `try` block. -/
theorem mintCollectionTry_counts (env : Env) (opts : CollectionMintOptions) (w : String)
    (out : BatchMintResult) (evs : List Ev)
    (h : mintCollectionTry env opts w = .ok (out, evs)) :
    out.totalMinted + out.failed = opts.imageUris.length
    ∧ out.results.length = out.totalMinted := by
  unfold mintCollectionTry at h
  simp only [estimateCostCall] at h
  split at h
  · cases h
  · next b0 st2 hgb0 =>
    have hp0 := getBal_ok_preserves env _ b0 st2 hgb0
    split at h
    · cases h
    · split at h
      · cases h
      · next st6 hloop =>
        split at h
        · cases h
        · next fb st7 hgb7 =>
          have hp7 := getBal_ok_preserves env _ fb st7 hgb7
          have hcounts := itemsLoop_counts env opts opts.imageUris.length
            (List.range opts.imageUris.length) _ st6 hloop
          simp only [Except.ok.injEq, Prod.mk.injEq] at h
          obtain ⟨hout, -⟩ := h
          subst hout
          simp only [St.emit_results, St.emit_successfulMints, St.updBal_results,
            St.updBal_successfulMints, List.length_range] at hcounts hp7 ⊢
          have h2r : st2.results = [] := by
            simpa using hp0.1
          have h2m : st2.successfulMints = 0 := by
            simpa using hp0.2.1
          rw [h2r, h2m] at hcounts
          have h7r : st7.results.length = st6.results.length := by rw [hp7.1]
          have h7m := hp7.2.1
          simp only [List.length_nil] at hcounts
          omega

/-- C1: whenever the batch orchestrator returns a `BatchMintResult` —
whether the item loop ran to completion or stopped early — the counts
satisfy `totalMinted + failed = N` and `results.length = totalMinted`,
where `N` is the number of requested items. -/
theorem mintCollection_counts (env : Env) (opts : CollectionMintOptions)
    (out : BatchMintResult) (evs : List Ev)
    (h : mintCollection env opts = .ok (out, evs)) :
    out.totalMinted + out.failed = opts.imageUris.length
    ∧ out.results.length = out.totalMinted := by
  unfold mintCollection at h
  split at h
  · cases h
  · split at h
    · cases h
    · split at h
      · next r htry =>
        simp only [Except.ok.injEq] at h
        subst h
        exact mintCollectionTry_counts env opts _ out evs htry
      · cases h

/-- Witness for C1: a concrete two-item run (one success, one
insufficient-funds failure) returning `totalMinted = 1`, `failed = 1`,
`results.length = 1`. -/
theorem mintCollection_counts_witness :
    (∃ out evs, mintCollection ifStopEnv
        { ifStopOpts with imageUris := ["i1", "i2"], metadataUris := ["m1", "m2"] }
        = .ok (out, evs))
    ∧ (∀ out evs,
        mintCollection ifStopEnv
            { ifStopOpts with imageUris := ["i1", "i2"], metadataUris := ["m1", "m2"] }
          = .ok (out, evs) →
        out.totalMinted + out.failed = 2 ∧ out.results.length = out.totalMinted) := by
  constructor
  · exact ⟨_, _, rfl⟩
  · intro out evs h
    exact mintCollection_counts _ _ out evs h

/-- When every balance query succeeds, the retry loop never throws. -/
theorem retryLoopAux_no_error (env : Env) (opts : CollectionMintOptions) (total i : Nat)
    (hb : ∀ k, ∃ v, env.balances k = .ok v) :
    ∀ (fuel rc : Nat) (st : St), ∃ st' rc2,
      retryLoopAux env opts total i fuel rc st = .ok (st', rc2) := by
  intro fuel
  induction fuel with
  | zero => exact fun rc st => ⟨st, rc, rfl⟩
  | succ n ih =>
    intro rc st
    cases htry : env.tries i rc with
    | ok sig mintAddr tokenAcct metaAddr =>
      simp only [retryLoopAux, htry]
      exact ⟨_, _, rfl⟩
    | err e =>
      by_cases hif : (jsIncludes e.message "insufficient lamports"
          || jsIncludes e.message "Insufficient funds") = true
      · obtain ⟨v, hv⟩ := hb st.balCalls
        simp only [retryLoopAux, htry, hif, if_true, getBal, St.emit_balCalls, hv]
        exact ⟨_, _, rfl⟩
      · rw [Bool.not_eq_true] at hif
        by_cases hrc : rc + 1 ≤ 3
        · simp only [retryLoopAux, htry, hif, Bool.false_eq_true, if_false, if_pos hrc]
          exact ih (rc + 1) _
        · simp only [retryLoopAux, htry, hif, Bool.false_eq_true, if_false, if_neg hrc]
          exact ⟨_, _, rfl⟩

/-- When every balance query succeeds, the balance pre-check never throws. -/
theorem balancePrecheck_no_error (env : Env) (total i : Nat) (st : St)
    (hb : ∀ k, ∃ v, env.balances k = .ok v) :
    ∃ st', balancePrecheck env total i st = .ok st' := by
  by_cases hi : (decide (0 < i) && (i % 2 == 0)) = true
  · obtain ⟨v, hv⟩ := hb st.balCalls
    exact ⟨_, balancePrecheck_even_eval env total i st v hi hv⟩
  · rw [Bool.not_eq_true] at hi
    exact ⟨st, balancePrecheck_skipped env total i st hi⟩

/-- When every balance query succeeds, the item loop never throws. -/
theorem itemsLoop_no_error (env : Env) (opts : CollectionMintOptions) (total : Nat)
    (hb : ∀ k, ∃ v, env.balances k = .ok v) :
    ∀ (is : List Nat) (st : St), ∃ st', itemsLoop env opts total is st = .ok st' := by
  intro is
  induction is with
  | nil => exact fun st => ⟨st, rfl⟩
  | cons i rest ih =>
    intro st
    obtain ⟨st1, hpre⟩ := balancePrecheck_no_error env total i st hb
    obtain ⟨st2, rc2, hretry⟩ := retryLoopAux_no_error env opts total i hb 4 0 st1
    by_cases hstop : (st2.insufficientFundsDetected && decide (3 < rc2)) = true
    · simp only [itemsLoop, processItem, hpre, retryLoop, hretry, hstop, if_true]
      exact ⟨_, rfl⟩
    · rw [Bool.not_eq_true] at hstop
      obtain ⟨st', hrest⟩ := ih (if i < total - 1 then st2.emit (.sleep 1000) else st2)
      refine ⟨st', ?_⟩
      simp only [itemsLoop, processItem, hpre, retryLoop, hretry, hstop,
        Bool.false_eq_true, if_false]
      exact hrest

/-- When every balance query succeeds and the upfront balance covers the
whole-batch estimate, the `try` body returns a result. -/
theorem mintCollectionTry_no_error (env : Env) (opts : CollectionMintOptions) (w : String)
    (b0 : Nat)
    (hb : ∀ k, ∃ v, env.balances k = .ok v)
    (hb0 : env.balances 0 = .ok b0)
    (hsuff : estimateMintingCost (env.rents 0) .collection opts.imageUris.length ≤ b0) :
    ∃ out evs, mintCollectionTry env opts w = .ok (out, evs) := by
  unfold mintCollectionTry
  simp only [estimateCostCall, getBal, hb0]
  rw [if_neg (by omega)]
  obtain ⟨st6, hloop⟩ := itemsLoop_no_error env opts opts.imageUris.length hb
    (List.range opts.imageUris.length) _
  rw [hloop]
  obtain ⟨v, hv⟩ := hb st6.balCalls
  simp only [hv]
  exact ⟨_, _, rfl⟩

/-- C3 (amended): once per-item minting has started the orchestrator
absorbs every mint failure into the per-item `failed` count — it can
throw mid-run only when a wallet-balance RPC query itself rejects.
Formally: if every balance query succeeds, then the call throws only
for the pre-flight failures (absent wallet, mismatched array lengths,
or initial balance below the whole-batch estimate); under pre-flight
success it always returns a `BatchMintResult`. -/
theorem mintCollection_no_throw_after_start (env : Env) (opts : CollectionMintOptions)
    (w : String) (b0 : Nat)
    (hb : ∀ k, ∃ v, env.balances k = .ok v)
    (hw : opts.walletPublicKey = some w)
    (hlen : opts.imageUris.length = opts.metadataUris.length)
    (hb0 : env.balances 0 = .ok b0)
    (hsuff : estimateMintingCost (env.rents 0) .collection opts.imageUris.length ≤ b0) :
    ∃ out evs, mintCollection env opts = .ok (out, evs) := by
  obtain ⟨out, evs, htry⟩ := mintCollectionTry_no_error env opts w b0 hb hb0 hsuff
  refine ⟨out, evs, ?_⟩
  unfold mintCollection
  simp only [hw, htry]
  rw [if_neg (by omega)]

/-- Witness for C3 (amended): a one-item batch with an infallible
balance stream and ample funds completes. -/
def alwaysOkEnv : Env where
  balances := fun _ => .ok 1000000000
  rents := fun _ => none
  tries := fun i _ => .ok (.str ("s" ++ toString i)) "mint0" "ata0" "meta0"

/-- Options for the one-item witness batch. -/
def oneItemOpts : CollectionMintOptions where
  collectionName := "C"
  imageUris := ["i1"]
  metadataUris := ["m1"]
  royalty := 0
  network := .eclipseTestnet
  recipients := none
  walletPublicKey := some "W1"

/-- Witness for C3 (amended): the hypotheses hold concretely and the
run returns a result. -/
theorem mintCollection_no_throw_witness :
    ∃ out evs, mintCollection alwaysOkEnv oneItemOpts = .ok (out, evs) :=
  mintCollection_no_throw_after_start alwaysOkEnv oneItemOpts "W1" 1000000000
    (fun k => ⟨1000000000, rfl⟩) rfl rfl rfl (by decide)

/-- Counterexample environment for C3 as stated: the single item mints
successfully, but the final wallet-balance read (the second `getBalance`
call, after minting has started and succeeded) rejects. -/
def finalBalFailEnv : Env where
  balances := fun k => if k = 0 then .ok 1000000000000 else .error { name := "Error", message := "boom" }
  rents := fun _ => some (100, 200, 300)
  tries := fun i _ => .ok (.str ("s" ++ toString i)) "mint0" "ata0" "meta0"

/-- The same environment with the final balance read succeeding. -/
def finalBalOkEnv : Env where
  balances := fun k => if k = 0 then .ok 1000000000000 else .ok 7
  rents := fun _ => some (100, 200, 300)
  tries := fun i _ => .ok (.str ("s" ++ toString i)) "mint0" "ata0" "meta0"

/-- The error of a failed computation, if any. -/
def errOf {α : Type} : Except MinterError α → Option MinterError
  | .error e => some e
  | .ok _ => none

/-- C3 counterexample: none of the claim's permitted pre-flight throw
conditions holds (wallet present, equal array lengths, initial balance
far above the estimate), the single item is submitted and mints — as
the identical run under `finalBalOkEnv` shows — and yet the call
throws a classified error, because the final balance read rejects
after minting has started.  So the orchestrator does not only throw
pre-flight. -/
theorem mintCollection_throws_after_start_counterexample :
    errOf (mintCollection finalBalFailEnv oneItemOpts)
      = some { code := .mintFailed, message := "NFT minting failed: boom" }
    ∧ oneItemOpts.walletPublicKey = some "W1"
    ∧ oneItemOpts.imageUris.length = oneItemOpts.metadataUris.length
    ∧ finalBalFailEnv.balances 0 = .ok 1000000000000
    ∧ estimateMintingCost (finalBalFailEnv.rents 0) .collection 1 ≤ 1000000000000
    ∧ (∃ out evs, mintCollection finalBalOkEnv oneItemOpts = .ok (out, evs)
        ∧ out.totalMinted = 1 ∧ Ev.attemptMint 0 0 ∈ evs) := by
  refine ⟨by decide, rfl, rfl, rfl, by decide, ?_⟩
  refine ⟨_, _, rfl, by decide, by decide⟩

/-- The `try` body always reports the upfront whole-batch estimate as
`totalCost`. -/
theorem mintCollectionTry_totalCost (env : Env) (opts : CollectionMintOptions) (w : String)
    (out : BatchMintResult) (evs : List Ev)
    (h : mintCollectionTry env opts w = .ok (out, evs)) :
    out.totalCost = estimateMintingCost (env.rents 0) .collection opts.imageUris.length := by
  unfold mintCollectionTry at h
  simp only [estimateCostCall] at h
  split at h
  · cases h
  · split at h
    · cases h
    · split at h
      · cases h
      · split at h
        · cases h
        · simp only [Except.ok.injEq, Prod.mk.injEq] at h
          obtain ⟨hout, -⟩ := h
          subst hout
          rfl

/-- C9 (amended): on every completed run — normal or early-stopped —
the `totalCost` field of the returned `BatchOutcome` equals the
upfront whole-batch estimate (the per-item estimate times the number
of requested items, computed from the first rent query before any
minting), independent of how many items actually succeeded. -/
theorem mintCollection_totalCost (env : Env) (opts : CollectionMintOptions)
    (out : BatchMintResult) (evs : List Ev)
    (h : mintCollection env opts = .ok (out, evs)) :
    out.totalCost = estimateMintingCost (env.rents 0) .collection opts.imageUris.length := by
  unfold mintCollection at h
  split at h
  · cases h
  · split at h
    · cases h
    · split at h
      · next r htry =>
        simp only [Except.ok.injEq] at h
        subst h
        exact mintCollectionTry_totalCost env opts _ out evs htry
      · cases h

/-- Witness for C9 (amended): a concrete one-item run whose reported
`totalCost` is the upfront estimate. -/
theorem mintCollection_totalCost_witness :
    ∃ out evs, mintCollection alwaysOkEnv oneItemOpts = .ok (out, evs)
      ∧ out.totalCost
          = estimateMintingCost (alwaysOkEnv.rents 0) .collection
              oneItemOpts.imageUris.length :=
  ⟨_, _, rfl, mintCollection_totalCost alwaysOkEnv oneItemOpts _ _ rfl⟩

/-- Counterexample environment for C9 as stated: two items, the first
mints, the second fails all four attempts with a non-fund error. -/
def halfFailEnv : Env where
  balances := fun _ => .ok 1000000000000
  rents := fun _ => some (100, 200, 300)
  tries := fun i _ =>
    if i = 0 then .ok (.str "s0") "mint0" "ata0" "meta0"
    else .err { name := "Error", message := "node connection lost" }

/-- Options for the two-item counterexample batch. -/
def twoItemOpts : CollectionMintOptions where
  collectionName := "C"
  imageUris := ["i1", "i2"]
  metadataUris := ["m1", "m2"]
  royalty := 0
  network := .eclipseMainnet
  recipients := none
  walletPublicKey := some "W1"

/-- C9 counterexample: only one of the two items mints, yet `totalCost`
remains the full two-item upfront estimate (21200 lamports at these
rents), not the per-item estimate attributable to the single item
actually minted (10600) — so the reported figure is independent of how
many items succeeded, contradicting the claim. -/
theorem mintCollection_totalCost_counterexample :
    ∃ out evs, mintCollection halfFailEnv twoItemOpts = .ok (out, evs)
      ∧ out.totalMinted = 1
      ∧ out.totalCost = 21200
      ∧ out.totalCost ≠ estimateMintingCost (halfFailEnv.rents 0) .single 1 * out.totalMinted := by
  refine ⟨_, _, rfl, by decide, by decide, by decide⟩

/-- A successful `getBal` appends exactly one `getBalance` event. -/
theorem getBal_ok_events (env : Env) (st : St) (b : Nat) (st' : St)
    (h : getBal env st = .ok (b, st')) :
    st'.events = st.events ++ [Ev.getBalance] := by
  unfold getBal at h
  split at h
  · simp only [Except.ok.injEq, Prod.mk.injEq] at h
    obtain ⟨-, hst⟩ := h
    subst hst
    rfl
  · cases h

/-- The retry loop only appends to the event trace. -/
theorem retryLoopAux_events_mono (env : Env) (opts : CollectionMintOptions) (total i : Nat) :
    ∀ (fuel rc : Nat) (st st' : St) (rc2 : Nat),
      retryLoopAux env opts total i fuel rc st = .ok (st', rc2) →
      ∀ e ∈ st.events, e ∈ st'.events := by
  intro fuel
  induction fuel with
  | zero =>
    intro rc st st' rc2 h
    simp only [retryLoopAux, Except.ok.injEq, Prod.mk.injEq] at h
    obtain ⟨hst, -⟩ := h
    subst hst
    exact fun e he => he
  | succ n ih =>
    intro rc st st' rc2 h e he
    simp only [retryLoopAux] at h
    split at h
    · simp only [Except.ok.injEq, Prod.mk.injEq] at h
      obtain ⟨hst, -⟩ := h
      subst hst
      simp [he]
    · split at h
      · split at h
        · cases h
        · next b st1 hgb =>
          have hev := getBal_ok_events env _ b st1 hgb
          simp only [St.emit_events] at hev
          simp only [Except.ok.injEq, Prod.mk.injEq] at h
          obtain ⟨hst, -⟩ := h
          subst hst
          simp [hev, he]
      · split at h
        · refine ih _ _ _ _ h e ?_
          simp [he]
        · simp only [Except.ok.injEq, Prod.mk.injEq] at h
          obtain ⟨hst, -⟩ := h
          subst hst
          simp [he]

/-- A completed retry loop entered with `retryCount = rc` has recorded
the submission attempt `attemptMint i rc`. -/
theorem retryLoopAux_attempt_mem (env : Env) (opts : CollectionMintOptions) (total i : Nat)
    (n rc : Nat) (st st' : St) (rc2 : Nat)
    (h : retryLoopAux env opts total i (n + 1) rc st = .ok (st', rc2)) :
    Ev.attemptMint i rc ∈ st'.events := by
  simp only [retryLoopAux] at h
  split at h
  · simp only [Except.ok.injEq, Prod.mk.injEq] at h
    obtain ⟨hst, -⟩ := h
    subst hst
    simp
  · split at h
    · split at h
      · cases h
      · next b st1 hgb =>
        have hev := getBal_ok_events env _ b st1 hgb
        simp only [St.emit_events] at hev
        simp only [Except.ok.injEq, Prod.mk.injEq] at h
        obtain ⟨hst, -⟩ := h
        subst hst
        simp [hev]
    · split at h
      · refine retryLoopAux_events_mono env opts total i _ _ _ _ _ h (Ev.attemptMint i rc) ?_
        simp
      · simp only [Except.ok.injEq, Prod.mk.injEq] at h
        obtain ⟨hst, -⟩ := h
        subst hst
        simp

/-- C8: before starting the item at index `i`, the orchestrator
re-checks the wallet balance exactly when `i > 0` and `i % 2 == 0`
(first conjunct: otherwise the pre-check does nothing); at such an
index, a successful balance query of `b` records the comparison of `b`
against the estimated single-item cost times the remaining items and
emits the low-balance warning progress event exactly when `b` falls
short (second conjunct); and in every case the item is still attempted
afterwards — the pre-check alone never halts the batch: whenever the
pre-check completed and the retry loop ran, the trace contains the
item's first submission attempt (third conjunct). -/
theorem mintCollection_even_index_balance_recheck (env : Env) (opts : CollectionMintOptions)
    (total i : Nat) (st : St) (b : Nat) :
    ((decide (0 < i) && (i % 2 == 0)) = false → balancePrecheck env total i st = .ok st)
    ∧ ((decide (0 < i) && (i % 2 == 0)) = true → env.balances st.balCalls = .ok b →
        ∃ st1, balancePrecheck env total i st = .ok st1
          ∧ st1.events = st.events
              ++ [.getBalance, .rentQuery,
                  .balanceRecheck i b
                    (estimateMintingCost (env.rents st.rentCalls) .single 1 * (total - i))]
              ++ (if b < estimateMintingCost (env.rents st.rentCalls) .single 1 * (total - i)
                  then [.progress (.lowBalanceWarning i) st.successfulMints total]
                  else []))
    ∧ (∀ (st1 st2 : St) (rc : Nat),
        balancePrecheck env total i st = .ok st1 →
        retryLoop env opts total i st1 = .ok (st2, rc) →
        Ev.attemptMint i 0 ∈ st2.events) := by
  refine ⟨balancePrecheck_skipped env total i st, ?_, ?_⟩
  · intro hi hb
    exact ⟨_, balancePrecheck_even_eval env total i st b hi hb, rfl⟩
  · intro st1 st2 rc hpre hretry
    exact retryLoopAux_attempt_mem env opts total i 3 0 st1 st2 rc hretry

/-- Environment for the C8 witness: low balance at the re-check, so the
warning fires and the item is still attempted. -/
def recheckEnv : Env where
  balances := fun _ => .ok 5
  rents := fun _ => some (100, 200, 300)
  tries := fun i _ => .ok (.str ("s" ++ toString i)) "mint" "ata" "meta"

/-- Initial loop state for the C8 witness. -/
def recheckSt : St where
  results := []
  successfulMints := 1
  insufficientFundsDetected := false
  finalBalance := 5
  balCalls := 0
  rentCalls := 0
  events := []

/-- Witness for C8: at index 2 of a 3-item batch with balance 5 and
single-item estimate 10600, the pre-check emits the warning and the
retry loop still records the attempt; at index 1 the pre-check is
skipped. -/
theorem mintCollection_even_index_balance_recheck_witness :
    (balancePrecheck recheckEnv 3 1 recheckSt = .ok recheckSt)
    ∧ (∃ st1, balancePrecheck recheckEnv 3 2 recheckSt = .ok st1
        ∧ st1.events = recheckSt.events
            ++ [.getBalance, .rentQuery,
                .balanceRecheck 2 5
                  (estimateMintingCost (recheckEnv.rents recheckSt.rentCalls) .single 1 * (3 - 2))]
            ++ (if 5 < estimateMintingCost (recheckEnv.rents recheckSt.rentCalls) .single 1 * (3 - 2)
                then [.progress (.lowBalanceWarning 2) recheckSt.successfulMints 3]
                else []))
    ∧ (∀ (st1 st2 : St) (rc : Nat),
        balancePrecheck recheckEnv 3 2 recheckSt = .ok st1 →
        retryLoop recheckEnv twoItemOpts 3 2 st1 = .ok (st2, rc) →
        Ev.attemptMint 2 0 ∈ st2.events)
    ∧ (∃ st1 st2 rc, balancePrecheck recheckEnv 3 2 recheckSt = .ok st1
        ∧ retryLoop recheckEnv twoItemOpts 3 2 st1 = .ok (st2, rc)
        ∧ Ev.attemptMint 2 0 ∈ st2.events) := by
  refine ⟨?_, ?_, ?_, ?_⟩
  · exact (mintCollection_even_index_balance_recheck recheckEnv twoItemOpts 3 1 recheckSt 5).1
      (by decide)
  · exact (mintCollection_even_index_balance_recheck recheckEnv twoItemOpts 3 2 recheckSt 5).2.1
      (by decide) rfl
  · exact (mintCollection_even_index_balance_recheck recheckEnv twoItemOpts 3 2 recheckSt 5).2.2
  · refine ⟨_, _, _, rfl, rfl, ?_⟩
    exact (mintCollection_even_index_balance_recheck recheckEnv twoItemOpts 3 2 recheckSt 5).2.2
      _ _ _ rfl rfl

/-! ## Claims about the single-item minter retry policy -/

/-- Recognizer for submission-attempt events. -/
def isAttemptEv : Ev → Bool
  | .attemptMint _ _ => true
  | _ => false

/-- Recognizer for awaited-delay events. -/
def isSleepEv : Ev → Bool
  | .sleep _ => true
  | _ => false

/-- Each unit of fuel adds at most one submission attempt to the trace. -/
theorem mintNFTLoopAux_attempt_count (env : NftEnv) :
    ∀ (fuel rc : Nat) (evs : List Ev),
      ((mintNFTLoopAux env fuel rc evs).2.countP isAttemptEv)
        ≤ evs.countP isAttemptEv + fuel := by
  intro fuel
  induction fuel with
  | zero => intro rc evs; simp [mintNFTLoopAux]
  | succ n ih =>
    intro rc evs
    simp only [mintNFTLoopAux]
    split
    · simp [List.countP_append, List.countP_cons, isAttemptEv]
    · split
      · refine le_trans (ih _ _) ?_
        simp [List.countP_append, List.countP_cons, isAttemptEv]
        omega
      · simp [List.countP_append, List.countP_cons, isAttemptEv]

/-- Environment for the spec's retry scenario: the submission fails with
a stale-blockhash error on attempts 1 and 2 and succeeds on attempt 3. -/
def staleThenOkEnv : NftEnv where
  balance := .ok 1000000000
  rents := none
  attempts := fun k =>
    if k < 2 then .error { name := "Error", message := "Blockhash not found" } else .ok "SIG3"
  mintAddress := "MINT"
  tokenAccount := "ATA"
  metadataAddress := "META"

/-- C5: the single-item minter's retry policy.  First conjunct: a first
failure whose message is not a stale-blockhash error is not retried —
the call returns its classification immediately, and the trace ends at
the single submission attempt: no wait, no further fetch, no second
attempt.  Second conjunct: no run ever makes more than 3 submission
attempts.  Third conjunct: with stale-blockhash failures on attempts 1
and 2 and success on attempt 3, the call returns the successful result,
and the trace shows a fresh blockhash fetch directly before each of
the three attempts and a 2000 ms wait between consecutive attempts. -/
theorem mintNFT_retry_policy :
    (∀ (env : NftEnv) (w uri : String) (network : NetworkType) (b : Nat) (e : RawErr),
      env.balance = .ok b →
      estimateMintingCostMeta env.rents ≤ b →
      env.attempts 0 = .error e →
      jsIncludes e.message "Blockhash not found" = false →
      mintNFT env (some w) network uri
        = (.error (classifyMeta e),
           [.progressMsg .settingUp, .progressMsg .checkingBalance, .getBalance, .rentQuery,
            .progressMsg .generatingKeypair, .progressMsg .creatingNft,
            .fetchBlockhash, .attemptMint 0 0]))
    ∧ (∀ (env : NftEnv) (fuel rc : Nat) (evs : List Ev) (e : RawErr),
        env.attempts rc = .error e →
        jsIncludes e.message "Blockhash not found" = false →
        mintNFTLoopAux env (fuel + 1) rc evs
          = (.error e, evs ++ [.fetchBlockhash, .attemptMint 0 rc]))
    ∧ (∀ (env : NftEnv) (wallet : Option String) (network : NetworkType) (uri : String),
        (mintNFT env wallet network uri).2.countP isAttemptEv ≤ 3)
    ∧ ((mintNFT staleThenOkEnv (some "W1") .solanaDevnet "m").1.toOption
          = some { mintAddress := "MINT", signature := "SIG3",
                   explorerUrl := "https://explorer.solana.com/?cluster=devnet/tx/SIG3?cluster=testnet",
                   metadataAddress := "META", tokenAccount := "ATA", metadataUri := "m" }
        ∧ (mintNFT staleThenOkEnv (some "W1") .solanaDevnet "m").2
          = [.progressMsg .settingUp, .progressMsg .checkingBalance, .getBalance, .rentQuery,
             .progressMsg .generatingKeypair, .progressMsg .creatingNft,
             .fetchBlockhash, .attemptMint 0 0,
             .progressMsg (.retryingSingle 1), .sleep 2000,
             .fetchBlockhash, .attemptMint 0 1,
             .progressMsg (.retryingSingle 2), .sleep 2000,
             .fetchBlockhash, .attemptMint 0 2,
             .progressMsg .nftCreated]) := by
  refine ⟨?_, ?_, ?_, by decide, by decide⟩
  case refine_2 =>
    intro env fuel rc evs e hatt hinc
    simp only [mintNFTLoopAux, hatt, hinc, Bool.false_and, Bool.false_eq_true, if_false]
  · intro env w uri network b e hb hsuff hatt hinc
    simp only [mintNFT, hb]
    rw [if_neg (show ¬ b < estimateMintingCostMeta env.rents by omega)]
    simp only [mintNFTLoopAux, hatt, hinc, Bool.false_and, Bool.false_eq_true, if_false]
    rfl
  · intro env wallet network uri
    cases wallet with
    | none => simp [mintNFT, isAttemptEv]
    | some w =>
      cases hb : env.balance with
      | error e =>
        simp only [mintNFT, hb]
        decide
      | ok b =>
        by_cases hlt : b < estimateMintingCostMeta env.rents
        · simp only [mintNFT, hb, if_pos hlt]
          decide
        · simp only [mintNFT, hb, if_neg hlt]
          simp only [List.cons_append, List.nil_append]
          have hloop := mintNFTLoopAux_attempt_count env 3 0
            [.progressMsg .settingUp, .progressMsg .checkingBalance, .getBalance, .rentQuery,
             .progressMsg .generatingKeypair, .progressMsg .creatingNft]
          cases hml : mintNFTLoopAux env 3 0
              [.progressMsg .settingUp, .progressMsg .checkingBalance, .getBalance, .rentQuery,
               .progressMsg .generatingKeypair, .progressMsg .creatingNft] with
          | mk r evs1 =>
            rw [hml] at hloop
            cases r with
            | error e =>
              simp only [hml]
              simpa [isAttemptEv, List.countP_cons] using hloop
            | ok p =>
              obtain ⟨sig, rc⟩ := p
              simp only [hml, List.countP_append]
              simp only [List.countP] at hloop ⊢
              simpa [isAttemptEv, List.countP_cons] using hloop

/-- Environment for the C5 witness: the first submission attempt fails
with a user rejection (not a stale-blockhash error). -/
def rejectEnv : NftEnv where
  balance := .ok 1000000000
  rents := none
  attempts := fun _ => .error { name := "Error", message := "User rejected the request" }
  mintAddress := "MINT"
  tokenAccount := "ATA"
  metadataAddress := "META"

/-- Witness for C5: concrete discharge of the hypotheses — a
user-rejection failure on the first attempt is classified immediately
with a single attempt and no waits, and every run stays within three
attempts. -/
theorem mintNFT_retry_policy_witness :
    rejectEnv.balance = .ok 1000000000
    ∧ estimateMintingCostMeta rejectEnv.rents ≤ 1000000000
    ∧ rejectEnv.attempts 0 = .error { name := "Error", message := "User rejected the request" }
    ∧ jsIncludes "User rejected the request" "Blockhash not found" = false
    ∧ mintNFT rejectEnv (some "W1") .eclipseMainnet "m"
        = (.error (classifyMeta { name := "Error", message := "User rejected the request" }),
           [.progressMsg .settingUp, .progressMsg .checkingBalance, .getBalance, .rentQuery,
            .progressMsg .generatingKeypair, .progressMsg .creatingNft,
            .fetchBlockhash, .attemptMint 0 0])
    ∧ (mintNFT rejectEnv (some "W1") .eclipseMainnet "m").2.countP isAttemptEv ≤ 3 :=
  ⟨rfl, by decide, rfl, by decide,
   mintNFT_retry_policy.1 rejectEnv "W1" "m" .eclipseMainnet 1000000000
     { name := "Error", message := "User rejected the request" } rfl (by decide) rfl (by decide),
   mintNFT_retry_policy.2.2.1 rejectEnv (some "W1") .eclipseMainnet "m"⟩
